import Mathlib

/-!
A shallow embedding, in Lean 4, of the core of `src/TexasHoldem.tsx`
(a two-player Texas Hold'em round: hand evaluator, betting state machine,
opponent policy), together with theorems settling the specification claims.

Modelling conventions:
* JavaScript numbers that hold chip counts, the bet unit, the pot and the
  evaluator's strength score are modelled as `ℚ` (all arithmetic the program
  performs on them — additions, subtractions, halving, division by 100 — is
  exact on the values that occur).
* `Math.random()` draws are passed in explicitly as `ℚ` parameters in `[0,1)`;
  the Fisher–Yates shuffle receives the function `randj` where `randj i`
  stands for `Math.floor(Math.random() * (i + 1))` at loop index `i`.
* React `useState` semantics inside one event handler: reads of a state
  variable see the render snapshot (the values at handler entry), while
  `setX` calls enqueue updates and functional updaters compose.  Each
  handler is therefore embedded as a pure function threading two states:
  `s0`, the immutable snapshot, and `p`, the accumulated pending state.
-/

namespace Poker

set_option maxRecDepth 10000
set_option maxHeartbeats 2000000

/-- Card suits, in the source's declaration order. -/
def SUITS : List String := ["♠", "♥", "♦", "♣"]

/-- Card ranks, low to high, in the source's declaration order. -/
def RANKS : List String := ["2", "3", "4", "5", "6", "7", "8", "9", "10", "J", "Q", "K", "A"]

/-- A playing card: `{rank, suit}` as in the source. -/
structure Card where
  rank : String
  suit : String
deriving DecidableEq, Repr

/-- Stand-in for JavaScript `undefined` when popping an empty array
(out of contract; never reached on the decks the program builds). -/
def dummyCard : Card := { rank := "", suit := "" }

/-- JavaScript `Array.prototype.indexOf`: index of the first occurrence,
`-1` when absent. -/
def jsIndexOf (l : List String) (x : String) : Int :=
  match l.findIdx? (fun y => y == x) with
  | some i => (i : Int)
  | none => -1

/-- Numeric rank value 2–14 of a card: `RANKS.indexOf(c.rank) + 2`. -/
def rankVal (c : Card) : Int := jsIndexOf RANKS c.rank + 2

/-- The 52-card product built by `freshDeck`'s nested loops
(suits outer, ranks inner) before shuffling. -/
def baseDeck : List Card := SUITS.flatMap (fun s => RANKS.map (fun r => { rank := r, suit := s }))

/-- Swap the elements at positions `i` and `j`
(`[deck[i], deck[j]] = [deck[j], deck[i]]`); in-bounds in every real call. -/
def listSwap (l : List Card) (i j : Nat) : List Card :=
  match l.get? i, l.get? j with
  | some a, some b => (l.set i b).set j a
  | _, _ => l

/-- The Fisher–Yates loop `for (let i = deck.length - 1; i > 0; i--)`,
run from index `n` down to `1`. -/
def fisherYates (randj : Nat → Nat) : Nat → List Card → List Card
  | 0, l => l
  | i + 1, l => fisherYates randj i (listSwap l (i + 1) (randj (i + 1)))

/-- `freshDeck()`: build the 52-card product and shuffle it in place. -/
def freshDeck (randj : Nat → Nat) : List Card :=
  fisherYates randj (baseDeck.length - 1) baseDeck

/-! ## Hand evaluator (`evaluateHandRank`) -/

/-- Insert into an ascending list, keeping it ascending. -/
def insertAsc (a : Int) : List Int → List Int
  | [] => [a]
  | b :: t => if a ≤ b then a :: b :: t else b :: insertAsc a t

/-- Ascending insertion sort.  `Array.prototype.sort((a, b) => a - b)` on
numbers is observably exactly "sort ascending" (duplicates are
indistinguishable), so any sorting algorithm is the same function;
insertion sort is chosen for its structural recursion. -/
def sortAsc : List Int → List Int
  | [] => []
  | a :: t => insertAsc a (sortAsc t)

/-- `cards.map(c => RANKS.indexOf(c.rank) + 2).sort((a, b) => a - b)`. -/
def ranksOf (cards : List Card) : List Int :=
  sortAsc (cards.map rankVal)

/-- `Object.values(counts)`: the multiplicity of each distinct rank value. -/
def countsValues (cards : List Card) : List Nat :=
  ((ranksOf cards).dedup).map (fun v => (ranksOf cards).count v)

/-- `flush`: some suit occurs at least 5 times. -/
def flushFlag (cards : List Card) : Bool :=
  (((cards.map Card.suit).dedup).map (fun s => (cards.map Card.suit).count s)).any
    (fun c => decide (5 ≤ c))

/-- `uniqueRanks = [...new Set(ranks)]`: distinct rank values, ascending
(the ranks are already sorted and a `Set` keeps first-occurrence order). -/
def uniqueRanksOf (cards : List Card) : List Int :=
  (ranksOf cards).dedup

/-- `arr.slice(-5)`: the last five elements (the whole list when shorter). -/
def sliceLast5 (l : List Int) : List Int := l.drop (l.length - 5)

/-- `arr.every((v, i, arr) => i === 0 || v === arr[i - 1] + 1)`:
each element past the first is its predecessor plus one. -/
def consecChain : List Int → Bool
  | [] => true
  | [_] => true
  | a :: b :: t => (b == a + 1) && consecChain (b :: t)

/-- `straight`: at least 5 distinct rank values and the top 5 of them are
consecutive.  (Only the top 5 are examined — no wheel special case.) -/
def straightFlag (cards : List Card) : Bool :=
  decide (5 ≤ (uniqueRanksOf cards).length) && consecChain (sliceLast5 (uniqueRanksOf cards))

/-- The `rankOrder` array of the source, verbatim — note it lists
`"Four Card"` while the classifier below produces `"Four Cards"`. -/
def rankOrder : List String :=
  ["High Card", "One Pair", "Two Pairs", "Triple", "Straight", "Flush",
   "Full-House", "Four Card", "Straight Flush", "Royale Straight Flush"]

/-- The classification if-chain assigning `rankName`. -/
def rankNameFn (cards : List Card) : String :=
  let values := countsValues cards
  let flush := flushFlag cards
  let straight := straightFlag cards
  let ranks := ranksOf cards
  if straight && flush && ranks.contains 14 then "Royale Straight Flush"
  else if straight && flush then "Straight Flush"
  else if values.contains 4 then "Four Cards"
  else if values.contains 3 && values.contains 2 then "Full-House"
  else if flush then "Flush"
  else if straight then "Straight"
  else if values.contains 3 then "Triple"
  else if (values.filter (fun v => v == 2)).length == 2 then "Two Pairs"
  else if values.contains 2 then "One Pair"
  else "High Card"

/-- `Math.max(...ranks)`; the sentinel on `[]` stands for `-Infinity`
(never reached: every evaluated hand is nonempty). -/
def listMax : List Int → Int
  | [] => -1000000
  | a :: t => t.foldl max a

/-- `strength = rankOrder.indexOf(rankName) + Math.max(...ranks) / 100`. -/
def strengthFn (cards : List Card) : ℚ :=
  (jsIndexOf rankOrder (rankNameFn cards) : ℚ) + (listMax (ranksOf cards) : ℚ) / 100

/-- The record `{rank, strength}` returned by `evaluateHandRank`. -/
structure EvalResult where
  rank : String
  strength : ℚ
deriving DecidableEq, Repr

/-- `evaluateHandRank(cards)`. -/
def evaluateHandRank (cards : List Card) : EvalResult :=
  { rank := rankNameFn cards, strength := strengthFn cards }

/-! ## Round state machine (the `TexasHoldem` component's `useState` fields) -/

/-- One snapshot of the component's state variables. -/
structure GameState where
  deck : List Card
  player : List Card
  cpu : List Card
  community : List Card
  message : String
  stage : String
  playerChips : ℚ
  cpuChips : ℚ
  pot : ℚ
  bet : ℚ
deriving DecidableEq, Repr

/-- The state at mount: `useState(freshDeck())`, empty hands, stacks 1000,
pot 0, bet 50, stage `"ready"`. -/
def initialState (randj : Nat → Nat) : GameState :=
  { deck := freshDeck randj, player := [], cpu := [], community := [],
    message := "", stage := "ready",
    playerChips := 1000, cpuChips := 1000, pot := 0, bet := 50 }

/-- `d.pop()`: the last element of the array (the sentinel stands for
JavaScript `undefined` on an empty array, never reached). -/
def popTop : List Card → Card
  | [] => dummyCard
  | [a] => a
  | _ :: b :: t => popTop (b :: t)

/-- The array remaining after `d.pop()`. -/
def popRest (d : List Card) : List Card := d.dropLast

/-- The card list the opponent policy (and showdown) evaluates for the CPU:
`[...cpu, ...community]`. -/
def cpuEvalInput (s : GameState) : List Card := s.cpu ++ s.community

/-- `deal()`: refuse when a stack is empty; otherwise draw two cards to the
player then two to the CPU from the current deck, clear the community,
ante `min(bet, playerChips, cpuChips)` from each stack, pot twice that,
stage `"playing"`. -/
def deal (s : GameState) : GameState :=
  if s.playerChips ≤ 0 ∨ s.cpuChips ≤ 0 then
    { s with message := "Game Over. One player is bankrupt." }
  else
    let d0 := s.deck
    let c1 := popTop d0
    let d1 := popRest d0
    let c2 := popTop d1
    let d2 := popRest d1
    let c3 := popTop d2
    let d3 := popRest d2
    let c4 := popTop d3
    let d4 := popRest d3
    let initBet := min s.bet (min s.playerChips s.cpuChips)
    { s with
      player := [c1, c2]
      cpu := [c3, c4]
      deck := d4
      community := []
      message := ""
      stage := "playing"
      pot := initBet * 2
      playerChips := s.playerChips - initBet
      cpuChips := s.cpuChips - initBet }

/-- `evaluateWinner()`: compare both seven-card evaluations and pay the pot
(whole to the stronger hand, halved on a draw); stage `"showdown"`.
`s0` is the render snapshot the function reads, `p` the pending state its
queued updates apply to.  Note the `pot` state variable is not reset. -/
def evaluateWinner (s0 p : GameState) : GameState :=
  let playerEval := evaluateHandRank (s0.player ++ s0.community)
  let cpuEval := evaluateHandRank (s0.cpu ++ s0.community)
  if playerEval.strength > cpuEval.strength then
    { p with
      message := "You Win! (" ++ playerEval.rank ++ ")"
      playerChips := p.playerChips + s0.pot
      stage := "showdown" }
  else if playerEval.strength < cpuEval.strength then
    { p with
      message := "CPU Wins. (" ++ cpuEval.rank ++ ")"
      cpuChips := p.cpuChips + s0.pot
      stage := "showdown" }
  else
    { p with
      message := "Draw. (" ++ playerEval.rank ++ ")"
      playerChips := p.playerChips + s0.pot / 2
      cpuChips := p.cpuChips + s0.pot / 2
      stage := "showdown" }

/-- `nextStage()`: reveal the flop (3 cards), the turn, or the river from
the snapshot deck; with five community cards it instead runs
`evaluateWinner()` and draws nothing. -/
def nextStage (s0 p : GameState) : GameState :=
  if s0.community.length < 3 then
    let d0 := s0.deck
    let c1 := popTop d0
    let d1 := popRest d0
    let c2 := popTop d1
    let d2 := popRest d1
    let c3 := popTop d2
    let d3 := popRest d2
    { p with
      community := [c1, c2, c3]
      deck := d3 }
  else if s0.community.length < 5 then
    { p with
      community := p.community ++ [popTop s0.deck]
      deck := popRest s0.deck }
  else
    evaluateWinner s0 p

/-- `reset()`: fresh deck, cleared cards and pot, stage `"ready"`;
chip stacks and bet persist. -/
def reset (s : GameState) (randj : Nat → Nat) : GameState :=
  { s with
    deck := freshDeck randj
    player := []
    cpu := []
    community := []
    message := ""
    stage := "ready"
    pot := 0 }

/-- `cpuDecision(playerRaised, raiseAmount)`: the opponent policy.
`r1` is the `bluffChance` draw, `r2` the second `Math.random()` draw of the
confident-raise branch.  After a non-fold decision it runs `nextStage()`;
a fold pays the player the snapshot pot plus the raise and stops. -/
def cpuDecision (s0 p : GameState) (playerRaised : Bool) (raiseAmount : ℚ)
    (r1 r2 : ℚ) : GameState :=
  let strength := (evaluateHandRank (cpuEvalInput s0)).strength
  if playerRaised then
    if strength > 5 ∨ r1 < 1/4 then
      if s0.cpuChips ≥ raiseAmount then
        nextStage s0
          { p with
            cpuChips := p.cpuChips - raiseAmount
            pot := p.pot + raiseAmount
            message := "CPU calls your raise." }
      else
        { p with
          message := "CPU can't afford your raise and folds. You win!"
          playerChips := p.playerChips + s0.pot + raiseAmount
          stage := "folded" }
    else
      { p with
        message := "CPU folds. You win!"
        playerChips := p.playerChips + s0.pot + raiseAmount
        stage := "folded" }
  else
    if r1 < 1/10 then
      nextStage s0
        { p with
          cpuChips := p.cpuChips - s0.bet
          pot := p.pot + s0.bet
          message := "CPU bluffs and raises!" }
    else if strength > 5 ∧ r2 < 1/2 then
      nextStage s0
        { p with
          cpuChips := p.cpuChips - s0.bet
          pot := p.pot + s0.bet
          message := "CPU raises confidently." }
    else
      nextStage s0 { p with message := "CPU checks." }

/-- `handleCheck()`: only in stage `"playing"`; yields the turn to the CPU
with `playerRaised = false`. -/
def handleCheck (s : GameState) (r1 r2 : ℚ) : GameState :=
  if s.stage = "playing" then
    cpuDecision s { s with message := "You check." } false s.bet r1 r2
  else s

/-- `handleRaise()`: only in stage `"playing"` with `playerChips ≥ bet`;
moves the bet from the player's stack into the pot, then yields the turn to
the CPU with `playerRaised = true`. -/
def handleRaise (s : GameState) (r1 r2 : ℚ) : GameState :=
  if s.stage = "playing" ∧ s.bet ≤ s.playerChips then
    cpuDecision s
      { s with
        playerChips := s.playerChips - s.bet
        pot := s.pot + s.bet
        message := "You raise " ++ toString s.bet ++ "." }
      true s.bet r1 r2
  else s

/-- `handleFold()`: awards the pot to the CPU and sets stage `"folded"` —
with no guard on the current stage. -/
def handleFold (s : GameState) : GameState :=
  { s with
    message := "You Fold. CPU Wins."
    cpuChips := s.cpuChips + s.pot
    stage := "folded" }

/-- `setBet`: the bet-unit input, rendered only while playing;
the presentation bounds it to `[10, playerChips]` in steps of 10. -/
def setBet (s : GameState) (b : ℚ) : GameState := { s with bet := b }

/-- One user interaction as the rendered UI allows it: each button or input
only exists in the stages where the component renders it; random draws lie
in `[0,1)` and shuffle indices satisfy the `Math.floor(random*(i+1)) ≤ i`
contract. -/
inductive UStep : GameState → GameState → Prop
  | deal (s : GameState) (h : s.stage = "ready") : UStep s (Poker.deal s)
  | check (s : GameState) (r1 r2 : ℚ) (h : s.stage = "playing")
      (h1 : 0 ≤ r1 ∧ r1 < 1) (h2 : 0 ≤ r2 ∧ r2 < 1) : UStep s (handleCheck s r1 r2)
  | raise (s : GameState) (r1 r2 : ℚ) (h : s.stage = "playing")
      (h1 : 0 ≤ r1 ∧ r1 < 1) (h2 : 0 ≤ r2 ∧ r2 < 1) : UStep s (handleRaise s r1 r2)
  | fold (s : GameState) (h : s.stage = "playing") : UStep s (handleFold s)
  | reset (s : GameState) (randj : Nat → Nat)
      (h : s.stage = "showdown" ∨ s.stage = "folded")
      (hr : ∀ i, randj i ≤ i) : UStep s (Poker.reset s randj)
  | setBet (s : GameState) (b : ℚ) (h : s.stage = "playing")
      (hb : 10 ≤ b ∧ b ≤ s.playerChips ∧ ∃ k : ℕ, b = 10 * k) : UStep s (Poker.setBet s b)

/-- `Reaches s t`: the UI can drive the component from state `s` to `t`. -/
def Reaches (s t : GameState) : Prop := Relation.ReflTransGen UStep s t

/-- `playerChips + cpuChips + pot`: the chips in play. -/
def chipSum (s : GameState) : ℚ := s.playerChips + s.cpuChips + s.pot

/-! ## Concrete inputs used to settle the claims -/

/-- A shuffle-index choice that leaves the deck in construction order
(every Fisher–Yates step swaps a position with itself). -/
def idFun : Nat → Nat := fun i => i

/-- Four deuces and a seven: a four-of-a-kind hand. -/
def fourKindHand : List Card :=
  [⟨"2", "♠"⟩, ⟨"2", "♥"⟩, ⟨"2", "♦"⟩, ⟨"2", "♣"⟩, ⟨"K", "♠"⟩]

/-- An unpaired, unsuited, unconnected hand: a high-card hand. -/
def highCardHand : List Card :=
  [⟨"3", "♠"⟩, ⟨"5", "♥"⟩, ⟨"7", "♦"⟩, ⟨"9", "♣"⟩, ⟨"K", "♥"⟩]

/-- The wheel A-2-3-4-5 in mixed suits. -/
def wheelHand : List Card :=
  [⟨"A", "♠"⟩, ⟨"2", "♥"⟩, ⟨"3", "♦"⟩, ⟨"4", "♣"⟩, ⟨"5", "♠"⟩]

/-- Seven cards whose flush (five hearts: 2,7,9,J,K) and whose straight
(9-10-J-Q-K across hearts and spades) use different card sets: no five-card
subset is itself both a straight and a flush. -/
def crossedHand : List Card :=
  [⟨"2", "♥"⟩, ⟨"7", "♥"⟩, ⟨"9", "♥"⟩, ⟨"J", "♥"⟩, ⟨"K", "♥"⟩,
   ⟨"10", "♠"⟩, ⟨"Q", "♠"⟩]

/-- The mount state with the construction-order deck. -/
def sInit : GameState := initialState idFun

/-- A two of spades. -/
def card2S : Card := ⟨"2", "♠"⟩

/-- A state whose deck holds four copies of one card: were a fresh 52-card
deck constructed by `deal` itself, dealing from this state could not hand
the player two identical cards. -/
def dupDeckState : GameState :=
  { deck := [card2S, card2S, card2S, card2S]
    player := []
    cpu := []
    community := []
    message := ""
    stage := "ready"
    playerChips := 1000
    cpuChips := 1000
    pot := 0
    bet := 50 }

/-- A showdown state holding a (stale) pot of 100. -/
def showdownPotState : GameState :=
  { deck := []
    player := []
    cpu := []
    community := []
    message := ""
    stage := "showdown"
    playerChips := 500
    cpuChips := 400
    pot := 100
    bet := 50 }

/-- Shuffle indices rigging the initial deck so that the player is dealt
A♠ A♥, the CPU 2♥ 3♦, and the board K♠ 9♥ 5♦ 4♣ J♠ — the player wins the
first showdown. -/
def randj0 (i : Nat) : Nat :=
  if i = 51 then 12 else if i = 50 then 25 else if i = 49 then 13
  else if i = 48 then 27 else if i = 47 then 11 else if i = 46 then 20
  else if i = 45 then 29 else if i = 44 then 41 else if i = 43 then 9
  else i

/-- A play trace: deal, then four checks through showdown (the CPU checks
on every draw `1/2, 9/10`), a reset, a second deal, and a bet-unit change
to 940 — reaching a playing state where the CPU holds 900 < 940 chips. -/
def trace0 : GameState := initialState randj0

def trace1 : GameState := deal trace0

def trace2 : GameState := handleCheck trace1 (1/2) (9/10)

def trace3 : GameState := handleCheck trace2 (1/2) (9/10)

def trace4 : GameState := handleCheck trace3 (1/2) (9/10)

def trace5 : GameState := handleCheck trace4 (1/2) (9/10)

def trace6 : GameState := reset trace5 idFun

def trace7 : GameState := deal trace6

def trace8 : GameState := setBet trace7 940

/-- Modelled from the claim's words (not from the source): a genuine
five-card flush — all five cards of one suit. -/
def specFlush5 (l : List Card) : Bool :=
  l.all (fun c => c.suit == (l.headD dummyCard).suit)

/-- Modelled from the claim's words (not from the source): a genuine
five-card straight — five distinct consecutive rank values, or the wheel
A-2-3-4-5. -/
def specStraight5 (l : List Card) : Bool :=
  (((sortAsc (l.map rankVal)).dedup).length == 5 &&
    consecChain ((sortAsc (l.map rankVal)).dedup)) ||
  (((sortAsc (l.map rankVal)).dedup) == [2, 3, 4, 5, 14])

/-! ## Helper lemmas -/

/-- Membership is preserved by `insertAsc`. -/
theorem mem_insertAsc (x a : Int) : ∀ l : List Int,
    (x ∈ insertAsc a l ↔ x = a ∨ x ∈ l) := by
  intro l
  induction l with
  | nil => simp [insertAsc]
  | cons b t ih =>
    unfold insertAsc
    split_ifs
    · simp
    · simp only [List.mem_cons, ih]
      tauto

/-- Membership is preserved by `sortAsc`. -/
theorem mem_sortAsc (x : Int) : ∀ l : List Int, (x ∈ sortAsc l ↔ x ∈ l) := by
  intro l
  induction l with
  | nil => simp [sortAsc]
  | cons a t ih =>
    unfold sortAsc
    rw [mem_insertAsc]
    simp only [List.mem_cons, ih]

/-- Replacing position `m` of a list with `x` while holding on to the old
element is a permutation of pushing `x` on top. -/
theorem swapHeadPerm : ∀ (u : List Card) (m : Nat) (h : m < u.length) (x : Card),
    List.Perm (u.get ⟨m, h⟩ :: u.set m x) (x :: u) := by
  intro u
  induction u with
  | nil => intro m h x; exact absurd h (by simp)
  | cons b t ih =>
    intro m h x
    cases m with
    | zero => exact List.Perm.swap x b t
    | succ m =>
      have hm : m < t.length := by simpa using h
      exact ((List.Perm.swap b (t.get ⟨m, hm⟩) (t.set m x)).trans
        ((ih m hm x).cons b)).trans (List.Perm.swap x b t)

/-- Swapping two in-bounds positions of a list permutes it. -/
theorem setSetSwapPerm : ∀ (l : List Card) (i j : Nat) (hi : i < l.length)
    (hj : j < l.length),
    List.Perm ((l.set i (l.get ⟨j, hj⟩)).set j (l.get ⟨i, hi⟩)) l := by
  intro l
  induction l with
  | nil => intro i j hi _; exact absurd hi (by simp)
  | cons b t ih =>
    intro i j hi hj
    cases i with
    | zero =>
      cases j with
      | zero => exact List.Perm.refl _
      | succ j => exact swapHeadPerm t j (by simpa using hj) b
    | succ i =>
      cases j with
      | zero => exact swapHeadPerm t i (by simpa using hi) b
      | succ j => exact (ih i j (by simpa using hi) (by simpa using hj)).cons b

/-- `listSwap` permutes its input. -/
theorem listSwapPerm (l : List Card) (i j : Nat) : List.Perm (listSwap l i j) l := by
  unfold listSwap
  split
  · next a b heqi heqj =>
    obtain ⟨hi, rfl⟩ := List.get?_eq_some.mp heqi
    obtain ⟨hj, rfl⟩ := List.get?_eq_some.mp heqj
    exact setSetSwapPerm l i j hi hj
  · exact List.Perm.refl l

/-- The Fisher–Yates loop permutes its input. -/
theorem fisherYatesPerm (randj : Nat → Nat) :
    ∀ (n : Nat) (l : List Card), List.Perm (fisherYates randj n l) l
  | 0, l => List.Perm.refl l
  | n + 1, l =>
    (fisherYatesPerm randj n _).trans (listSwapPerm l (n + 1) (randj (n + 1)))

/-- A fresh deck is a permutation of the 52-card rank×suit product. -/
theorem freshDeckPerm (randj : Nat → Nat) : List.Perm (freshDeck randj) baseDeck :=
  fisherYatesPerm randj (baseDeck.length - 1) baseDeck

/-- The 52-card product has no duplicates. -/
theorem baseDeckNodup : baseDeck.Nodup := by decide

/-- The 52-card product has 52 cards. -/
theorem baseDeckLength : baseDeck.length = 52 := by decide

/-- `nextStage` before the river only reveals cards: the chip fields, the
stage and the message of the pending state pass through unchanged. -/
theorem nextStage_preserves (s0 p : GameState) (h : s0.community.length < 5) :
    (nextStage s0 p).playerChips = p.playerChips ∧
    (nextStage s0 p).cpuChips = p.cpuChips ∧
    (nextStage s0 p).pot = p.pot ∧
    (nextStage s0 p).stage = p.stage ∧
    (nextStage s0 p).message = p.message := by
  unfold nextStage
  by_cases h3 : s0.community.length < 3
  · rw [if_pos h3]; exact ⟨rfl, rfl, rfl, rfl, rfl⟩
  · rw [if_neg h3, if_pos h]; exact ⟨rfl, rfl, rfl, rfl, rfl⟩

/-- A true `straightFlag` exhibits five consecutive rank values present in
the input. -/
theorem straightFlag_run (cards : List Card) (h : straightFlag cards = true) :
    ∃ k : Int, k ∈ cards.map rankVal ∧ (k + 1) ∈ cards.map rankVal ∧
      (k + 2) ∈ cards.map rankVal ∧ (k + 3) ∈ cards.map rankVal ∧
      (k + 4) ∈ cards.map rankVal := by
  unfold straightFlag at h
  rw [Bool.and_eq_true] at h
  obtain ⟨h5, hchain⟩ := h
  have h5' : 5 ≤ (uniqueRanksOf cards).length := of_decide_eq_true h5
  have hsub : ∀ x ∈ sliceLast5 (uniqueRanksOf cards), x ∈ cards.map rankVal := by
    intro x hx
    have hxu : x ∈ uniqueRanksOf cards := List.drop_subset _ _ hx
    have hxr : x ∈ ranksOf cards := List.dedup_subset _ hxu
    unfold ranksOf at hxr
    exact (mem_sortAsc x (cards.map rankVal)).mp hxr
  have hvlen : (sliceLast5 (uniqueRanksOf cards)).length = 5 := by
    unfold sliceLast5
    rw [List.length_drop]
    omega
  revert hchain hsub hvlen
  generalize sliceLast5 (uniqueRanksOf cards) = v
  intro hchain hsub hvlen
  rcases v with _ | ⟨a, _ | ⟨b, _ | ⟨c, _ | ⟨d, _ | ⟨e, _ | ⟨f, t⟩⟩⟩⟩⟩⟩ <;>
    simp only [List.length_nil, List.length_cons] at hvlen <;> try omega
  simp only [consecChain, Bool.and_eq_true, beq_iff_eq] at hchain
  obtain ⟨hb, hc, hd, he, -⟩ := hchain
  subst hb
  subst hc
  subst hd
  subst he
  refine ⟨a, hsub a (by simp), hsub (a + 1) (by simp), ?_, ?_, ?_⟩
  · have h2 := hsub (a + 1 + 1) (by simp)
    rwa [show a + 1 + 1 = a + 2 by ring] at h2
  · have h3 := hsub (a + 1 + 1 + 1) (by simp)
    rwa [show a + 1 + 1 + 1 = a + 3 by ring] at h3
  · have h4 := hsub (a + 1 + 1 + 1 + 1) (by simp)
    rwa [show a + 1 + 1 + 1 + 1 = a + 4 by ring] at h4

/-! ## Claim theorems -/

/-- C1 (code bug): the classifier labels four-of-a-kind `"Four Cards"`, but
`rankOrder` lists `"Four Card"`, so `indexOf` yields `-1` and a
four-of-a-kind hand's strength is `-1 + kicker/100` — strictly below every
high-card hand's strength, contradicting both the claimed formula
(category index 7) and category dominance. -/
theorem C1_four_of_a_kind_underranks :
    evaluateHandRank fourKindHand =
      { rank := "Four Cards", strength := -1 + 13 / 100 } ∧
    jsIndexOf rankOrder "Four Cards" = -1 ∧
    (evaluateHandRank highCardHand).rank = "High Card" ∧
    (evaluateHandRank fourKindHand).strength <
      (evaluateHandRank highCardHand).strength := by
  refine ⟨by with_unfolding_all decide, by with_unfolding_all decide,
    by with_unfolding_all decide, by with_unfolding_all decide⟩

/-- C2 (amended): settlement credits the stacks with exactly the
render-snapshot pot: `evaluateWinner` adds the snapshot pot `s0.pot` to the
pending stacks — whole to the winner, or half each on a draw — and `fold`
awards the current pot to the CPU.  So when settlement starts a handler
with nothing yet committed in that same handler (pending = snapshot), the
stacks gain exactly the pot; but chips committed earlier in the same
handler (a river bluff/confident raise, or a called river raise) are never
disbursed — the stacks grow only by the stale snapshot pot.  The `pot`
state variable itself keeps its pre-settlement value through
Showdown/Folded; only `reset` zeroes it. -/
theorem C2_settlement_credits_snapshot_pot_only (s0 p : GameState) :
    ((evaluateWinner s0 p).playerChips + (evaluateWinner s0 p).cpuChips =
        p.playerChips + p.cpuChips + s0.pot ∧
      (evaluateWinner s0 p).pot = p.pot ∧
      (evaluateWinner s0 p).stage = "showdown") ∧
    ((handleFold s0).playerChips + (handleFold s0).cpuChips =
        s0.playerChips + s0.cpuChips + s0.pot ∧
      (handleFold s0).pot = s0.pot ∧
      (handleFold s0).stage = "folded") ∧
    (∀ randj : Nat → Nat, (reset s0 randj).pot = 0) := by
  refine ⟨⟨?_, ?_, ?_⟩, ⟨?_, rfl, rfl⟩, fun _ => rfl⟩
  · simp only [evaluateWinner]
    split_ifs
    · show p.playerChips + s0.pot + p.cpuChips = p.playerChips + p.cpuChips + s0.pot
      ring
    · show p.playerChips + (p.cpuChips + s0.pot) = p.playerChips + p.cpuChips + s0.pot
      ring
    · show p.playerChips + s0.pot / 2 + (p.cpuChips + s0.pot / 2) =
        p.playerChips + p.cpuChips + s0.pot
      ring
  · simp only [evaluateWinner]
    split_ifs <;> rfl
  · simp only [evaluateWinner]
    split_ifs <;> rfl
  · show s0.playerChips + (s0.cpuChips + s0.pot) = s0.playerChips + s0.cpuChips + s0.pot
    ring

/-- C2 counterexample, two reachable settlements against the claim.
(a) Folding the freshly dealt round ends in stage `"folded"` with the
`pot` variable still holding 100, not 0.  (b) From the UI-reachable river
state `trace4` (stacks 950/950, pot 100, five community cards, still
Playing), a player check answered by a CPU bluff (draw 1/20) settles in
the same handler: the stacks end at 1050 + 900 = 1950, not the
pre-settlement `playerChips + opponentChips + pot` = 2000 — the bluffed 50
chips never reach a stack — while the `pot` variable ends at 150. -/
theorem C2_counterexample_incomplete_disbursement :
    ((handleFold (deal sInit)).stage = "folded" ∧
      (handleFold (deal sInit)).pot = 100 ∧ ¬ ((100 : ℚ) = 0)) ∧
    Reaches (initialState randj0) trace4 ∧
    trace4.community.length = 5 ∧
    trace4.stage = "playing" ∧
    trace4.playerChips + trace4.cpuChips + trace4.pot = 2000 ∧
    (handleCheck trace4 (1/20) (1/2)).stage = "showdown" ∧
    (handleCheck trace4 (1/20) (1/2)).playerChips +
      (handleCheck trace4 (1/20) (1/2)).cpuChips = 1950 ∧
    ¬ ((1950 : ℚ) = 2000) ∧
    (handleCheck trace4 (1/20) (1/2)).pot = 150 := by
  refine ⟨⟨by with_unfolding_all decide, by with_unfolding_all decide, by norm_num⟩,
    ?_, by with_unfolding_all decide, by with_unfolding_all decide,
    by with_unfolding_all decide, by with_unfolding_all decide,
    by with_unfolding_all decide, by norm_num, by with_unfolding_all decide⟩
  · have h01 : UStep trace0 trace1 := UStep.deal trace0 rfl
    have h12 : UStep trace1 trace2 :=
      UStep.check trace1 (1/2) (9/10) (by with_unfolding_all decide)
        (by norm_num) (by norm_num)
    have h23 : UStep trace2 trace3 :=
      UStep.check trace2 (1/2) (9/10) (by with_unfolding_all decide)
        (by norm_num) (by norm_num)
    have h34 : UStep trace3 trace4 :=
      UStep.check trace3 (1/2) (9/10) (by with_unfolding_all decide)
        (by norm_num) (by norm_num)
    exact Relation.ReflTransGen.head h01 (Relation.ReflTransGen.head h12
      (Relation.ReflTransGen.head h23 (Relation.ReflTransGen.single h34)))

/-- C3 (amended): `check` and `raise` are guarded on the Playing phase and
are exact no-ops outside it, but `fold` has no phase guard: invoked in any
phase it still awards the pot to the CPU and forces the phase to Folded. -/
theorem C3_phase_guards :
    (∀ (s : GameState) (r1 r2 : ℚ), s.stage ≠ "playing" →
      handleCheck s r1 r2 = s) ∧
    (∀ (s : GameState) (r1 r2 : ℚ), s.stage ≠ "playing" →
      handleRaise s r1 r2 = s) ∧
    (∀ s : GameState, (handleFold s).stage = "folded" ∧
      (handleFold s).cpuChips = s.cpuChips + s.pot ∧
      (handleFold s).playerChips = s.playerChips ∧
      (handleFold s).pot = s.pot) := by
  refine ⟨?_, ?_, fun s => ⟨rfl, rfl, rfl, rfl⟩⟩
  · intro s r1 r2 h
    unfold handleCheck
    rw [if_neg h]
  · intro s r1 r2 h
    unfold handleRaise
    rw [if_neg (fun hc => h hc.1)]

/-- C3 witness: the theorem applied in the Ready state. -/
theorem C3_phase_guards_witness :
    sInit.stage ≠ "playing" ∧
    handleCheck sInit (1/2) (1/2) = sInit ∧
    handleRaise sInit (1/2) (1/2) = sInit ∧
    (handleFold sInit).stage = "folded" :=
  ⟨by with_unfolding_all decide, C3_phase_guards.1 sInit (1/2) (1/2) (by with_unfolding_all decide),
    C3_phase_guards.2.1 sInit (1/2) (1/2) (by with_unfolding_all decide),
    (C3_phase_guards.2.2 sInit).1⟩

/-- C3 counterexample: the claim says `fold` outside Playing leaves the
state unchanged; in a Showdown state with a (stale) pot of 100 it mutates
the state — stage becomes `"folded"` and the CPU gains the pot. -/
theorem C3_counterexample_fold_mutates :
    handleFold showdownPotState ≠ showdownPotState ∧
    (handleFold showdownPotState).stage = "folded" ∧
    (handleFold showdownPotState).cpuChips = 500 := by
  refine ⟨by with_unfolding_all decide, by with_unfolding_all decide, by with_unfolding_all decide⟩

/-- C4 (amended): the evaluator never fails — on every card list (of any
length, duplicates or not) it returns one of the ten category names — and
the integrated round does invoke it on a 2-card input: right after any
deal, the CPU evaluation input (hole cards plus empty community) has
length 2. -/
theorem C4_evaluator_total_and_called_preflop :
    (∀ l : List Card, (evaluateHandRank l).rank ∈
      ["High Card", "One Pair", "Two Pairs", "Triple", "Straight", "Flush",
       "Full-House", "Four Cards", "Straight Flush", "Royale Straight Flush"]) ∧
    (∀ randj : Nat → Nat,
      (cpuEvalInput (deal (initialState randj))).length = 2 ∧
      (deal (initialState randj)).stage = "playing") := by
  constructor
  · intro l
    show rankNameFn l ∈ _
    unfold rankNameFn
    dsimp only
    split_ifs <;> simp
  · intro randj
    have hneg : ¬ ((initialState randj).playerChips ≤ 0 ∨
        (initialState randj).cpuChips ≤ 0) := by
      simp only [initialState, not_or]
      norm_num
    constructor
    · show (cpuEvalInput (deal (initialState randj))).length = 2
      unfold deal
      rw [if_neg hneg]
      rfl
    · unfold deal
      rw [if_neg hneg]

/-- C4 counterexample: the deal step is a legal UI step from the mount
state, and the resulting CPU evaluation input has only 2 cards — on which
`evaluateHandRank` succeeds, returning a High Card classification rather
than failing. -/
theorem C4_counterexample_two_card_eval :
    UStep sInit (deal sInit) ∧
    (cpuEvalInput (deal sInit)).length = 2 ∧
    evaluateHandRank (cpuEvalInput (deal sInit)) =
      { rank := "High Card", strength := 12 / 100 } := by
  refine ⟨UStep.deal sInit rfl, by with_unfolding_all decide, by with_unfolding_all decide⟩

/-- `nextStage` before the river leaves the chip sum of the pending state
unchanged. -/
theorem chipSum_nextStage (s0 p : GameState) (h : s0.community.length < 5) :
    chipSum (nextStage s0 p) = chipSum p := by
  obtain ⟨h1, h2, h3, -, -⟩ := nextStage_preserves s0 p h
  unfold chipSum
  rw [h1, h2, h3]

/-- C5: chip conservation — `playerChips + cpuChips + pot` is unchanged by
`deal` (from a Ready state, where the pot is 0), by `check` together with
the opponent's resulting check or raise, by `raise` together with the
opponent's resulting call, and by `advanceCommunity` (`nextStage`) before
the river; each operation only moves chips between the stacks and the pot. -/
theorem C5_chip_conservation (s : GameState) (r1 r2 : ℚ) :
    (s.pot = 0 → chipSum (deal s) = chipSum s) ∧
    (s.community.length < 5 → chipSum (handleCheck s r1 r2) = chipSum s) ∧
    (s.community.length < 5 →
      ((evaluateHandRank (cpuEvalInput s)).strength > 5 ∨ r1 < 1/4) →
      s.bet ≤ s.cpuChips →
      chipSum (handleRaise s r1 r2) = chipSum s) ∧
    (s.community.length < 5 → chipSum (nextStage s s) = chipSum s) := by
  refine ⟨?_, ?_, ?_, fun h => chipSum_nextStage s s h⟩
  · intro hpot
    unfold deal
    split_ifs with hb
    · rfl
    · unfold chipSum
      dsimp only
      rw [hpot]
      ring
  · intro hcom
    unfold handleCheck
    split_ifs with hst
    · unfold cpuDecision
      dsimp only
      rw [if_neg (show ¬ ((false : Bool) = true) from Bool.false_ne_true)]
      split_ifs with h1 h2
      · rw [chipSum_nextStage _ _ hcom]
        unfold chipSum
        dsimp only
        ring
      · rw [chipSum_nextStage _ _ hcom]
        unfold chipSum
        dsimp only
        ring
      · rw [chipSum_nextStage _ _ hcom]
        rfl
    · rfl
  · intro hcom hcall haff
    unfold handleRaise
    split_ifs with hg
    · unfold cpuDecision
      dsimp only
      rw [if_pos (show (true : Bool) = true from rfl)]
      rw [if_pos hcall, if_pos haff]
      rw [chipSum_nextStage _ _ hcom]
      unfold chipSum
      dsimp only
      ring
    · rfl

/-- C5 witness: the theorem applied at the mount state (for `deal`) and at
the freshly dealt state (for `check`, `raise` with a calling draw, and
`advanceCommunity`). -/
theorem C5_chip_conservation_witness :
    sInit.pot = 0 ∧ (deal sInit).community.length < 5 ∧
    ((1 : ℚ)/8 < 1/4) ∧ (deal sInit).bet ≤ (deal sInit).cpuChips ∧
    chipSum (deal sInit) = chipSum sInit ∧
    chipSum (handleCheck (deal sInit) (1/8) (9/10)) = chipSum (deal sInit) ∧
    chipSum (handleRaise (deal sInit) (1/8) (9/10)) = chipSum (deal sInit) ∧
    chipSum (nextStage (deal sInit) (deal sInit)) = chipSum (deal sInit) :=
  ⟨by with_unfolding_all decide, by with_unfolding_all decide, by norm_num,
    by with_unfolding_all decide,
    (C5_chip_conservation sInit (1/8) (9/10)).1 (by with_unfolding_all decide),
    (C5_chip_conservation (deal sInit) (1/8) (9/10)).2.1
      (by with_unfolding_all decide),
    (C5_chip_conservation (deal sInit) (1/8) (9/10)).2.2.1
      (by with_unfolding_all decide) (Or.inr (by norm_num))
      (by with_unfolding_all decide),
    (C5_chip_conservation (deal sInit) (1/8) (9/10)).2.2.2
      (by with_unfolding_all decide)⟩

/-- C6 (amended): `deal` does not construct a deck — it draws the top four
cards of the state's current deck (two to the player, then two to the CPU),
clears the community, antes `min(bet, playerChips, cpuChips)` from each
stack with the pot exactly twice that, and moves to Playing; the deck it
draws from was built fresh at mount/reset, and that deck is a permutation
of the full 52-card rank×suit product (52 cards, no duplicates). -/
theorem C6_deal_draws_current_deck (s : GameState) (randj : Nat → Nat)
    (hp : 0 < s.playerChips) (hc : 0 < s.cpuChips)
    (hdeck : s.deck = freshDeck randj) (_hr : ∀ i, randj i ≤ i) :
    (deal s).player = [popTop s.deck, popTop (popRest s.deck)] ∧
    (deal s).cpu = [popTop (popRest (popRest s.deck)),
      popTop (popRest (popRest (popRest s.deck)))] ∧
    (deal s).community = [] ∧
    (deal s).stage = "playing" ∧
    (deal s).pot = min s.bet (min s.playerChips s.cpuChips) * 2 ∧
    (deal s).playerChips = s.playerChips - min s.bet (min s.playerChips s.cpuChips) ∧
    (deal s).cpuChips = s.cpuChips - min s.bet (min s.playerChips s.cpuChips) ∧
    (deal s).deck = popRest (popRest (popRest (popRest s.deck))) ∧
    List.Perm s.deck baseDeck ∧ s.deck.length = 52 ∧ s.deck.Nodup := by
  have hneg : ¬ (s.playerChips ≤ 0 ∨ s.cpuChips ≤ 0) := by
    rintro (h | h) <;> linarith
  have hperm : List.Perm s.deck baseDeck := hdeck ▸ freshDeckPerm randj
  refine ⟨?_, ?_, ?_, ?_, ?_, ?_, ?_, ?_, hperm,
    hperm.length_eq.trans baseDeckLength, hperm.nodup_iff.mpr baseDeckNodup⟩ <;>
  · unfold deal
    rw [if_neg hneg]

/-- C6 witness: the theorem applied at the mount state. -/
theorem C6_deal_witness :
    (0 < sInit.playerChips ∧ 0 < sInit.cpuChips ∧
      sInit.deck = freshDeck idFun ∧ (∀ i, idFun i ≤ i)) ∧
    ((deal sInit).player = [popTop sInit.deck, popTop (popRest sInit.deck)] ∧
      (deal sInit).cpu = [popTop (popRest (popRest sInit.deck)),
        popTop (popRest (popRest (popRest sInit.deck)))] ∧
      (deal sInit).community = [] ∧
      (deal sInit).stage = "playing" ∧
      (deal sInit).pot = min sInit.bet (min sInit.playerChips sInit.cpuChips) * 2 ∧
      (deal sInit).playerChips =
        sInit.playerChips - min sInit.bet (min sInit.playerChips sInit.cpuChips) ∧
      (deal sInit).cpuChips =
        sInit.cpuChips - min sInit.bet (min sInit.playerChips sInit.cpuChips) ∧
      (deal sInit).deck = popRest (popRest (popRest (popRest sInit.deck))) ∧
      List.Perm sInit.deck baseDeck ∧ sInit.deck.length = 52 ∧ sInit.deck.Nodup) :=
  ⟨⟨by with_unfolding_all decide, by with_unfolding_all decide, rfl,
      fun i => Nat.le_refl i⟩,
    C6_deal_draws_current_deck sInit idFun (by with_unfolding_all decide)
      (by with_unfolding_all decide) rfl (fun i => Nat.le_refl i)⟩

/-- C6 counterexample: the claim says `deal()` itself constructs a fresh
shuffled 52-card deck and draws the holes from it; dealing from a state
whose deck is four copies of 2♠ hands the player two identical cards and
leaves an empty deck — impossible had `deal` built a fresh 52-card deck. -/
theorem C6_counterexample_no_fresh_deck :
    (deal dupDeckState).player = [card2S, card2S] ∧
    ¬ (deal dupDeckState).player.Nodup ∧
    (deal dupDeckState).deck = [] := by
  refine ⟨by decide, by decide, by decide⟩

/-- C7: response to a player raise of the bet unit `A`: the CPU calls —
paying `A` into the pot, which then holds the old pot plus both `A`s —
exactly when `(strength > 5 ∨ r < 0.25)` and it can afford `A`; in every
other case it folds and the player's stack receives the full pot including
the raise already committed. -/
theorem C7_raise_policy (s : GameState) (r1 r2 : ℚ)
    (hs : s.stage = "playing") (hp : s.bet ≤ s.playerChips)
    (hcom : s.community.length < 5) :
    ((((evaluateHandRank (cpuEvalInput s)).strength > 5 ∨ r1 < 1/4) ∧
        s.bet ≤ s.cpuChips) →
      ((handleRaise s r1 r2).playerChips = s.playerChips - s.bet ∧
       (handleRaise s r1 r2).cpuChips = s.cpuChips - s.bet ∧
       (handleRaise s r1 r2).pot = s.pot + s.bet + s.bet ∧
       (handleRaise s r1 r2).stage = "playing")) ∧
    ((¬ (((evaluateHandRank (cpuEvalInput s)).strength > 5 ∨ r1 < 1/4) ∧
        s.bet ≤ s.cpuChips)) →
      ((handleRaise s r1 r2).stage = "folded" ∧
       (handleRaise s r1 r2).playerChips = s.playerChips - s.bet + s.pot + s.bet ∧
       (handleRaise s r1 r2).cpuChips = s.cpuChips ∧
       (handleRaise s r1 r2).pot = s.pot + s.bet)) := by
  have hguard : s.stage = "playing" ∧ s.bet ≤ s.playerChips := ⟨hs, hp⟩
  constructor
  · rintro ⟨hcall, haff⟩
    unfold handleRaise
    rw [if_pos hguard]
    unfold cpuDecision
    dsimp only
    rw [if_pos (show (true : Bool) = true from rfl)]
    rw [if_pos hcall, if_pos haff]
    obtain ⟨e1, e2, e3, e4, -⟩ := nextStage_preserves s _ hcom
    rw [e1, e2, e3, e4]
    exact ⟨rfl, rfl, rfl, hs⟩
  · intro hnot
    unfold handleRaise
    rw [if_pos hguard]
    unfold cpuDecision
    dsimp only
    rw [if_pos (show (true : Bool) = true from rfl)]
    by_cases hcall : ((evaluateHandRank (cpuEvalInput s)).strength > 5 ∨ r1 < 1/4)
    · have haff : ¬ (s.cpuChips ≥ s.bet) := fun h => hnot ⟨hcall, h⟩
      rw [if_pos hcall, if_neg haff]
      exact ⟨rfl, rfl, rfl, rfl⟩
    · rw [if_neg hcall]
      exact ⟨rfl, rfl, rfl, rfl⟩

/-- C7 witness: at the freshly dealt state, the draw 1/8 makes the CPU call
the raise; the draw 1/2 (with a weak CPU hand) makes it fold and pays the
player the whole pot including the raise. -/
theorem C7_raise_policy_witness :
    (deal sInit).stage = "playing" ∧
    (deal sInit).bet ≤ (deal sInit).playerChips ∧
    (deal sInit).community.length < 5 ∧
    ((((evaluateHandRank (cpuEvalInput (deal sInit))).strength > 5 ∨
        (1 : ℚ)/8 < 1/4) ∧ (deal sInit).bet ≤ (deal sInit).cpuChips)) ∧
    (¬ (((evaluateHandRank (cpuEvalInput (deal sInit))).strength > 5 ∨
        (1 : ℚ)/2 < 1/4) ∧ (deal sInit).bet ≤ (deal sInit).cpuChips)) ∧
    (handleRaise (deal sInit) (1/8) (1/2)).cpuChips =
      (deal sInit).cpuChips - (deal sInit).bet ∧
    (handleRaise (deal sInit) (1/2) (1/2)).stage = "folded" ∧
    (handleRaise (deal sInit) (1/2) (1/2)).playerChips =
      (deal sInit).playerChips - (deal sInit).bet + (deal sInit).pot + (deal sInit).bet :=
  ⟨by with_unfolding_all decide, by with_unfolding_all decide,
    by with_unfolding_all decide, by with_unfolding_all decide,
    by with_unfolding_all decide,
    ((C7_raise_policy (deal sInit) (1/8) (1/2) (by with_unfolding_all decide)
      (by with_unfolding_all decide) (by with_unfolding_all decide)).1
      (by with_unfolding_all decide)).2.1,
    ((C7_raise_policy (deal sInit) (1/2) (1/2) (by with_unfolding_all decide)
      (by with_unfolding_all decide) (by with_unfolding_all decide)).2
      (by with_unfolding_all decide)).1,
    ((C7_raise_policy (deal sInit) (1/2) (1/2) (by with_unfolding_all decide)
      (by with_unfolding_all decide) (by with_unfolding_all decide)).2
      (by with_unfolding_all decide)).2.1⟩

/-- C8: on any input that contains the wheel ranks A,2,3,4,5 but no run of
five consecutive rank values, the straight flag stays false — the detector
examines only the top five distinct rank values, so a wheel A-2-3-4-5 is
never recognized — and the hand is not classified as Straight, Straight
Flush, or Royale Straight Flush. -/
theorem C8_wheel_not_recognized (l : List Card)
    (_hwheel : (14 : Int) ∈ l.map rankVal ∧ (2 : Int) ∈ l.map rankVal ∧
      (3 : Int) ∈ l.map rankVal ∧ (4 : Int) ∈ l.map rankVal ∧
      (5 : Int) ∈ l.map rankVal)
    (hnorun : ∀ k : Int, k ∈ l.map rankVal →
      ¬ ((k + 1) ∈ l.map rankVal ∧ (k + 2) ∈ l.map rankVal ∧
        (k + 3) ∈ l.map rankVal ∧ (k + 4) ∈ l.map rankVal)) :
    straightFlag l = false ∧
    (evaluateHandRank l).rank ≠ "Straight" ∧
    (evaluateHandRank l).rank ≠ "Straight Flush" ∧
    (evaluateHandRank l).rank ≠ "Royale Straight Flush" := by
  have hsf : straightFlag l = false := by
    cases hc : straightFlag l
    · rfl
    · obtain ⟨k, hk, h1, h2, h3, h4⟩ := straightFlag_run l hc
      exact absurd ⟨h1, h2, h3, h4⟩ (hnorun k hk)
  refine ⟨hsf, ?_, ?_, ?_⟩ <;>
  · show rankNameFn l ≠ _
    unfold rankNameFn
    dsimp only
    rw [hsf]
    split_ifs <;> first | exact absurd ‹false = true› (by decide) | simp_all

/-- C8 witness: the theorem applied to the wheel hand A♠2♥3♦4♣5♠
(which evaluates to a mere High Card). -/
theorem C8_wheel_witness :
    ((14 : Int) ∈ wheelHand.map rankVal ∧ (2 : Int) ∈ wheelHand.map rankVal ∧
      (3 : Int) ∈ wheelHand.map rankVal ∧ (4 : Int) ∈ wheelHand.map rankVal ∧
      (5 : Int) ∈ wheelHand.map rankVal) ∧
    (∀ k : Int, k ∈ wheelHand.map rankVal →
      ¬ ((k + 1) ∈ wheelHand.map rankVal ∧ (k + 2) ∈ wheelHand.map rankVal ∧
        (k + 3) ∈ wheelHand.map rankVal ∧ (k + 4) ∈ wheelHand.map rankVal)) ∧
    (straightFlag wheelHand = false ∧
      (evaluateHandRank wheelHand).rank ≠ "Straight" ∧
      (evaluateHandRank wheelHand).rank ≠ "Straight Flush" ∧
      (evaluateHandRank wheelHand).rank ≠ "Royale Straight Flush") :=
  ⟨by decide, by decide,
    C8_wheel_not_recognized wheelHand (by decide) (by decide)⟩

/-- C9: the check-path raise of the opponent deducts the standing bet unit
with no affordability check: from the mount state the UI can reach a
Playing state whose CPU stack (900) is positive but below the bet unit
(940), and a check with a bluffing draw leaves the CPU stack negative. -/
theorem C9_check_bluff_overdraws_stack :
    ∃ (randj : Nat → Nat) (s : GameState) (r1 r2 : ℚ),
      (∀ i, randj i ≤ i) ∧
      Reaches (initialState randj) s ∧
      0 ≤ r1 ∧ r1 < 1 ∧ 0 ≤ r2 ∧ r2 < 1 ∧
      s.stage = "playing" ∧
      0 < s.cpuChips ∧ s.cpuChips < s.bet ∧
      (handleCheck s r1 r2).cpuChips = s.cpuChips - s.bet ∧
      (handleCheck s r1 r2).cpuChips < 0 := by
  refine ⟨randj0, trace8, 1/20, 1/2, ?_, ?_, by norm_num, by norm_num,
    by norm_num, by norm_num, ?_, ?_, ?_, ?_, ?_⟩
  · intro i
    unfold randj0
    split_ifs <;> omega
  · have h01 : UStep trace0 trace1 := UStep.deal trace0 rfl
    have h12 : UStep trace1 trace2 :=
      UStep.check trace1 (1/2) (9/10) (by with_unfolding_all decide)
        (by norm_num) (by norm_num)
    have h23 : UStep trace2 trace3 :=
      UStep.check trace2 (1/2) (9/10) (by with_unfolding_all decide)
        (by norm_num) (by norm_num)
    have h34 : UStep trace3 trace4 :=
      UStep.check trace3 (1/2) (9/10) (by with_unfolding_all decide)
        (by norm_num) (by norm_num)
    have h45 : UStep trace4 trace5 :=
      UStep.check trace4 (1/2) (9/10) (by with_unfolding_all decide)
        (by norm_num) (by norm_num)
    have h56 : UStep trace5 trace6 :=
      UStep.reset trace5 idFun (Or.inl (by with_unfolding_all decide))
        (fun i => Nat.le_refl i)
    have h67 : UStep trace6 trace7 :=
      UStep.deal trace6 (by with_unfolding_all decide)
    have h78 : UStep trace7 trace8 :=
      UStep.setBet trace7 940 (by with_unfolding_all decide)
        ⟨by norm_num, by with_unfolding_all decide, ⟨94, by norm_num⟩⟩
    exact Relation.ReflTransGen.head h01 (Relation.ReflTransGen.head h12
      (Relation.ReflTransGen.head h23 (Relation.ReflTransGen.head h34
      (Relation.ReflTransGen.head h45 (Relation.ReflTransGen.head h56
      (Relation.ReflTransGen.head h67 (Relation.ReflTransGen.single h78)))))))
  · with_unfolding_all decide
  · with_unfolding_all decide
  · with_unfolding_all decide
  · with_unfolding_all decide
  · with_unfolding_all decide

/-- C10: flush and straight are detected independently over the whole
input: these seven cards evaluate to `"Straight Flush"` — the five hearts
2,7,9,J,K supply the flush and the mixed-suit run 9-10-J-Q-K the straight —
yet no five-card subset is simultaneously a genuine flush and a genuine
straight. -/
theorem C10_crossed_straight_flush :
    crossedHand.length = 7 ∧
    (evaluateHandRank crossedHand).rank = "Straight Flush" ∧
    ((crossedHand.sublists.filter (fun sub => sub.length == 5)).all
      (fun sub => !(specFlush5 sub && specStraight5 sub))) = true := by
  refine ⟨rfl, by decide, by decide⟩

end Poker
